import Mathlib

/-!
Verification development for a job-application automation tool
(`boards.py`, `apply_jobs.py`).

The Python source is shallowly embedded: the board registry becomes a
concrete association list, pure string manipulation becomes functions on
`String`/`List Char`, browser pages and frames become records of query
functions, and every side effect (navigation, element fills, file writes,
log appends, progress saves) becomes an explicit `Event` in a trace
returned by the embedded functions.
-/

/-! ## Python string primitives

Python `in`, `str.replace`, `str.lower`, `str.strip` modelled over
`List Char` with structural recursion.  The tool only applies them to
ASCII data (URLs, CSS selectors, template tokens), so ASCII case
folding and ASCII whitespace are faithful here.
-/

/-- Python `pat in s` (substring containment). -/
def containsSub (s pat : List Char) : Bool :=
  match s with
  | [] => pat.isEmpty
  | _ :: rest => pat.isPrefixOf s || containsSub rest pat

/-- Python `pat in s` on `String`. -/
def inStr (pat s : String) : Bool :=
  containsSub s.data pat.data

/-- One step of Python `str.replace` with explicit fuel (the scan advances
at least one character per step when `pat` is nonempty, so `s.length` fuel
suffices). -/
def replFuel (pat rep : List Char) : Nat → List Char → List Char
  | 0, s => s
  | fuel + 1, s =>
    match s with
    | [] => []
    | c :: rest =>
      if pat.isPrefixOf s then rep ++ replFuel pat rep fuel (s.drop pat.length)
      else c :: replFuel pat rep fuel rest

/-- Python `s.replace(pat, rep)` for the nonempty patterns used by the tool. -/
def pyReplace (s pat rep : String) : String :=
  ⟨replFuel pat.data rep.data s.data.length s.data⟩

/-- Python `s.lower()` (ASCII case folding, as used on URLs). -/
def pyLower (s : String) : String :=
  ⟨s.data.map Char.toLower⟩

/-- Python `s.strip()` (trim whitespace at both ends). -/
def pyStrip (s : String) : String :=
  ⟨((s.data.dropWhile Char.isWhitespace).reverse.dropWhile Char.isWhitespace).reverse⟩

/-! ## Board registry (`boards.py`)

Each entry of the Python `BOARDS` dict becomes a `(key, Board)` pair of an
association list; Python dicts iterate in insertion order, which the list
order preserves.
-/

/-- One ATS board descriptor, mirroring a `BOARDS` entry. -/
structure Board where
  id : String
  name : String
  search_site : String
  url_patterns : List String
  job_title_selectors : List String
  company_selectors : List String
  form_selector : String
  form_in_iframe : Bool
  fields : List (String × List String)
  linkedin_label : Option String

/-- `BOARDS["greenhouse"]`. -/
def greenhouseBoard : Board where
  id := "greenhouse"
  name := "Greenhouse"
  search_site := "site:boards.greenhouse.io"
  url_patterns := ["boards.greenhouse.io", "/jobs/"]
  job_title_selectors :=
    ["h1.app-title", ".app-title", "h1", "[data-qa*=\x27job-title\x27]"]
  company_selectors :=
    [".company-name", ".app-company-name", "a.company-link", "[data-qa*=\x27company\x27]"]
  form_selector := "form#application-form"
  form_in_iframe := true
  fields :=
    [("first_name", ["#first_name", "input[name=\x27first_name\x27]", "input[id*=\x27first\x27]"]),
     ("last_name", ["#last_name", "input[name=\x27last_name\x27]", "input[id*=\x27last\x27]"]),
     ("email", ["#email", "input[name=\x27email\x27]", "input[type=\x27email\x27]"]),
     ("phone", ["#phone", "input[name=\x27phone\x27]", "input[type=\x27tel\x27]"]),
     ("linkedin_url",
      ["#job_application_answers_attributes_0_text_value",
       "input[name*=\x27linkedin\x27]", "input[id*=\x27linkedin\x27]"]),
     ("resume",
      ["input[type=\x27file\x27][name*=\x27resume\x27]",
       "input[type=\x27file\x27][name*=\x27content\x27]", "input[type=\x27file\x27]"]),
     ("cover_letter",
      ["#job_application_cover_letter", "textarea[name*=\x27cover\x27]",
       "textarea[id*=\x27cover\x27]", "textarea[placeholder*=\x27cover\x27]"])]
  linkedin_label := some "LinkedIn Profile"

/-- `BOARDS["lever"]`. -/
def leverBoard : Board where
  id := "lever"
  name := "Lever"
  search_site := "site:jobs.lever.co"
  url_patterns := ["jobs.lever.co"]
  job_title_selectors :=
    ["h2.posting-headline__title", ".posting-headline h2",
     "h1.posting-headline__title", "h2", "h1"]
  company_selectors :=
    [".posting-headline__company", ".main-header-logo img[alt]",
     "a.posting-header-logo", "h1 + div"]
  form_selector := "form.posting-form, form[action*=\x27apply\x27], .postings-btn-wrapper + form"
  form_in_iframe := false
  fields :=
    [("name", ["input[name=\x27name\x27]", "input#name", "input[placeholder*=\x27ame\x27]"]),
     ("first_name",
      ["input[name=\x27firstName\x27]", "input#firstName", "input[name*=\x27first\x27]", "#first_name"]),
     ("last_name",
      ["input[name=\x27lastName\x27]", "input#lastName", "input[name*=\x27last\x27]", "#last_name"]),
     ("email", ["input[name=\x27email\x27]", "input#email", "input[type=\x27email\x27]"]),
     ("phone", ["input[name=\x27phone\x27]", "input#phone", "input[type=\x27tel\x27]"]),
     ("linkedin_url",
      ["input[name*=\x27linkedin\x27]", "input[name*=\x27url\x27]", "input[id*=\x27linkedin\x27]"]),
     ("resume", ["input[type=\x27file\x27]"]),
     ("cover_letter",
      ["textarea[name*=\x27comments\x27]", "textarea[name*=\x27comment\x27]",
       "textarea[name*=\x27cover\x27]", "textarea"])]
  linkedin_label := none

/-- `BOARDS["ashby"]`. -/
def ashbyBoard : Board where
  id := "ashby"
  name := "Ashby"
  search_site := "site:jobs.ashbyhq.com"
  url_patterns := ["jobs.ashbyhq.com"]
  job_title_selectors := ["h1[data-ashby-job-title]", "h1.job-title", "h1"]
  company_selectors :=
    ["[data-ashby-company-name]", ".company-name", "a[href*=\x27ashbyhq.com\x27]"]
  form_selector := "form[data-ashby-form], form"
  form_in_iframe := false
  fields :=
    [("name", ["input[name*=\x27name\x27]", "input[placeholder*=\x27ame\x27]"]),
     ("first_name",
      ["input[name*=\x27firstName\x27]", "input[name*=\x27first_name\x27]", "#first_name",
       "input[id*=\x27first\x27]"]),
     ("last_name",
      ["input[name*=\x27lastName\x27]", "input[name*=\x27last_name\x27]", "#last_name",
       "input[id*=\x27last\x27]"]),
     ("email", ["input[name*=\x27email\x27]", "input[type=\x27email\x27]", "#email"]),
     ("phone", ["input[name*=\x27phone\x27]", "input[type=\x27tel\x27]", "#phone"]),
     ("linkedin_url",
      ["input[name*=\x27linkedin\x27]", "input[name*=\x27url\x27]",
       "input[placeholder*=\x27LinkedIn\x27]"]),
     ("resume", ["input[type=\x27file\x27]"]),
     ("cover_letter",
      ["textarea[name*=\x27cover\x27]", "textarea[name*=\x27letter\x27]", "textarea"])]
  linkedin_label := none

/-- The `BOARDS` registry in insertion order. -/
def BOARDS : List (String × Board) :=
  [("greenhouse", greenhouseBoard), ("lever", leverBoard), ("ashby", ashbyBoard)]

/-- `all(p in url_lower for p in board["url_patterns"])` for one board. -/
def boardMatches (url : String) (b : Board) : Bool :=
  b.url_patterns.all (fun p => inStr p (pyLower url))

/-- The `for bid, board in BOARDS.items()` loop of `detect_board_from_url`. -/
def detectGo (url : String) : List (String × Board) → Option String
  | [] => none
  | (bid, b) :: rest => if boardMatches url b then some bid else detectGo url rest

/-- `detect_board_from_url`: first registered board whose whole pattern set
occurs in the lowercased URL. -/
def detect_board_from_url (url : String) : Option String :=
  detectGo url BOARDS

/-- `get_board`: registry lookup by id (`BOARDS.get(board_id)`). -/
def get_board (board_id : String) : Option Board :=
  (List.lookup board_id BOARDS)

/-- `get_search_site` with its `"site:boards.greenhouse.io"` default. -/
def get_search_site (board_id : String) : String :=
  match List.lookup board_id BOARDS with
  | some b => b.search_site
  | none => "site:boards.greenhouse.io"

/-! ## Page model and effect trace (`apply_jobs.py`)

A browser page or frame is a record of concrete observation functions;
elements are identified by `Nat` handles.  Every side effect the script
performs is recorded as an `Event`, so the embedded functions return the
trace of effects they would cause.
-/

/-- Outcome of `query_selector` / `wait_for_selector` on one selector:
an element, no element, or a raised exception (the `except` paths). -/
inductive QueryRes
  | found (el : Nat)
  | absent
  | error
deriving DecidableEq

/-- A document or child frame, as observed through the selector API.
`labelFillErr` models the `except` branch of the label-based LinkedIn
fill; `setFilesOk` models whether `set_input_files` accepts a selector. -/
structure Frame where
  query : String → QueryRes
  innerText : Nat → String
  altAttr : Nat → Option String
  labelCount : String → Nat
  labelFillErr : String → Bool
  setFilesOk : String → Bool

/-- The browser page: main document, child frames (`page.frames`), and
the `os.path.exists(resume_path)` observation made while filling. -/
structure PageEnv where
  main : Frame
  frames : List Frame
  resumeFileExists : Bool

/-- One observable side effect of the script. -/
inductive Event
  | browserLaunch
  | navigate (url : String)
  | fillEl (el : Nat) (value : String)
  | labelFill (label : String) (value : String)
  | setFiles (sel : String) (path : String)
  | dumpDebug
  | recordApplied (url : String)
  | logLine (url : String) (title : String) (company : String) (board : String)
  | saveProgress (urls : List String) (idx : Nat)
  | clearProgressEv
deriving DecidableEq

/-- The `config.json` fields the script reads (`config.get` defaults the
string fields to `""`; `board` and `job_search_query` keep their explicit
defaults at each use site). -/
structure Config where
  job_urls : List String
  board : Option String
  job_search_query : Option String
  first_name : String
  last_name : String
  email : String
  phone : String
  linkedin_url : String
  resume_path : String
  cover_letter : String
  cover_letter_template : String

/-- `progress.json` contents as written by `save_progress`. -/
structure RunProgress where
  job_urls : List String
  last_index : Nat

/-! ## Applied-jobs persistence -/

/-- `load_applied_jobs`: the stored `"urls"` list as a set; a missing or
unreadable file (`none`) yields the empty set. -/
def load_applied_jobs (file : Option (List String)) : Finset String :=
  match file with
  | none => ∅
  | some urls => urls.toFinset

/-- `save_applied_job`: reload the persisted set, add the URL, and write
the set back out as a list.  Python's `list(applied)` is a duplicate-free
list of the set in an unspecified order; `dedup` of the URL consed onto
the stored list realises exactly that set. -/
def save_applied_job (url : String) (file : Option (List String)) : List String :=
  (url :: (file.getD [])).dedup

/-! ## Job-page helpers -/

/-- `fill_cover_letter_template`: substitute the three tokens in order. -/
def fill_cover_letter_template (template : String) (job_title : String) (company : String) : String :=
  pyReplace (pyReplace (pyReplace template "{job_title}" job_title)
    "{company_name}" company) "{company}" company

/-- The title loop of `get_job_context`: first selector yielding a
nonempty stripped text shorter than 200 characters. -/
def title_from (fr : Frame) : List String → String
  | [] => "Unknown role"
  | sel :: rest =>
    match fr.query sel with
    | .found el =>
      let t := pyStrip (fr.innerText el)
      if t ≠ "" ∧ t.length < 200 then t else title_from fr rest
    | _ => title_from fr rest

/-- The company loop of `get_job_context` (`inner_text() or
get_attribute("alt") or ""`). -/
def company_from (fr : Frame) : List String → String
  | [] => "Unknown company"
  | sel :: rest =>
    match fr.query sel with
    | .found el =>
      let raw := if fr.innerText el ≠ "" then fr.innerText el else (fr.altAttr el).getD ""
      let c := pyStrip raw
      if c ≠ "" ∧ c.length < 200 then c else company_from fr rest
    | _ => company_from fr rest

/-- `get_job_context`: (title, company) extracted from the main page. -/
def get_job_context (fr : Frame) (board : Board) : String × String :=
  (title_from fr board.job_title_selectors, company_from fr board.company_selectors)

/-- Where `find_form` located the form: main document or `page.frames[i]`. -/
inductive FormRoot
  | mainDoc
  | frame (i : Nat)
deriving DecidableEq

/-- The frame loop of `find_form`. -/
def frames_scan (sel : String) : List Frame → Nat → Option FormRoot
  | [], _ => none
  | fr :: rest, i =>
    match fr.query sel with
    | .found _ => some (.frame i)
    | _ => frames_scan sel rest (i + 1)

/-- `find_form`: main document first; on failure, child frames when the
board is iframe-flagged. -/
def find_form (env : PageEnv) (board : Board) : Option FormRoot :=
  match env.main.query board.form_selector with
  | .found _ => some .mainDoc
  | _ => if board.form_in_iframe then frames_scan board.form_selector env.frames 0 else none

/-- Resolve a `FormRoot` to the frame filled afterwards (the index always
comes from `frames_scan`, so it is in range). -/
def root_frame (env : PageEnv) : FormRoot → Frame
  | .mainDoc => env.main
  | .frame i => (env.frames[i]?).getD env.main

/-! ## Field filling -/

/-- The selector loop of `fill_field`: first found element is filled; an
absent element or a raised exception moves to the next selector. -/
def fill_go (fr : Frame) (value : String) : List String → Bool × List Event
  | [] => (false, [])
  | sel :: rest =>
    match fr.query sel with
    | .found el => (true, [Event.fillEl el value])
    | _ => fill_go fr value rest

/-- `fill_field`: empty value or empty/missing selector list fails with
no effect; otherwise probe the board's selectors in order. -/
def fill_field (fr : Frame) (field_key : String) (value : String) (board : Board) :
    Bool × List Event :=
  if value = "" then (false, [])
  else
    let selectors := (List.lookup field_key board.fields).getD []
    if selectors.isEmpty then (false, [])
    else fill_go fr value selectors

/-- The resume loop of `fill_form_with_board`: first file-input selector
that accepts the upload. -/
def resume_upload (fr : Frame) (path : String) : List String → List Event
  | [] => []
  | sel :: rest =>
    if fr.setFilesOk sel then [Event.setFiles sel path] else resume_upload fr path rest

/-- The LinkedIn step: label-based fill when the board names a label
(falling back to selectors when that raises), else selector probing. -/
def linkedin_events (fr : Frame) (board : Board) (config : Config) : List Event :=
  if config.linkedin_url = "" then []
  else if (board.linkedin_label.getD "") ≠ "" then
    if fr.labelFillErr (board.linkedin_label.getD "") then
      (fill_field fr "linkedin_url" config.linkedin_url board).2
    else if fr.labelCount (board.linkedin_label.getD "") > 0 then
      [Event.labelFill (board.linkedin_label.getD "") config.linkedin_url]
    else []
  else (fill_field fr "linkedin_url" config.linkedin_url board).2

/-- `fill_form_with_board`: standard fields, LinkedIn, templated cover
letter, resume upload. -/
def fill_form_with_board (fr : Frame) (resumeExists : Bool) (board : Board) (config : Config)
    (job_title : String) (company : String) : List Event :=
  let full_name := pyStrip (config.first_name ++ " " ++ config.last_name)
  let cover0 := if config.cover_letter ≠ "" then config.cover_letter
                else config.cover_letter_template
  (fill_field fr "first_name" config.first_name board).2
    ++ (fill_field fr "last_name" config.last_name board).2
    ++ (if full_name ≠ "" then (fill_field fr "name" full_name board).2 else [])
    ++ (fill_field fr "email" config.email board).2
    ++ (fill_field fr "phone" config.phone board).2
    ++ linkedin_events fr board config
    ++ (if cover0 ≠ "" then
        (fill_field fr "cover_letter"
          (fill_cover_letter_template cover0 job_title company) board).2
      else [])
    ++ (if config.resume_path ≠ "" ∧ resumeExists then
        resume_upload fr config.resume_path
          ((List.lookup "resume" board.fields).getD ["input[type=\x27file\x27]"])
      else [])

/-! ## Per-job processing and the run loop -/

/-- `apply_to_job`: returns whether the form was found and filled,
together with the trace of effects. -/
def apply_to_job (env : PageEnv) (url : String) (config : Config) (board_id : String) :
    Bool × List Event :=
  match get_board board_id with
  | none => (false, [])
  | some board =>
    let ctx := get_job_context env.main board
    match find_form env board with
    | none => (false, [Event.navigate url, Event.dumpDebug])
    | some root =>
      (true,
        [Event.navigate url]
          ++ fill_form_with_board (root_frame env root) env.resumeFileExists board config
              ctx.1 ctx.2
          ++ [Event.recordApplied url, Event.logLine url ctx.1 ctx.2 board.name])

/-- `detect_board_from_url(url) or config.get("board", "greenhouse")`. -/
def loop_board_id (config : Config) (url : String) : String :=
  (detect_board_from_url url).getD (config.board.getD "greenhouse")

/-- The `for i, url in enumerate(job_urls)` loop: apply, then
`save_progress(job_urls, i)`, whatever the outcome. -/
def run_jobs (envOf : String → PageEnv) (config : Config) (all : List String) :
    Nat → List String → List Event
  | _, [] => []
  | i, url :: rest =>
    (apply_to_job (envOf url) url config (loop_board_id config url)).2
      ++ [Event.saveProgress all i]
      ++ run_jobs envOf config all (i + 1) rest

/-- The whole per-job phase: the loop followed by `clear_progress()`. -/
def process_jobs (envOf : String → PageEnv) (config : Config) (job_urls : List String) :
    List Event :=
  run_jobs envOf config job_urls 0 job_urls ++ [Event.clearProgressEv]

/-! ## Worklist construction (`main`) -/

/-- The manual-list filtering step of `main`: on `--resume`, a saved
progress whose list equals the config list resumes after its index;
otherwise already-applied URLs are removed. -/
def manual_worklist (resume : Bool) (progress : Option RunProgress) (applied : Finset String)
    (urls : List String) : List String :=
  if resume then
    match progress with
    | some p =>
      if p.job_urls = urls then urls.drop (p.last_index + 1)
      else urls.filter (fun u => decide (u ∉ applied))
    | none => urls.filter (fun u => decide (u ∉ applied))
  else urls.filter (fun u => decide (u ∉ applied))

/-- The DuckDuckGo query string built by `search_jobs_via_browser`. -/
def full_search_query (board_id : String) (query : String) : String :=
  if board_id = "all" then
    let sites := BOARDS.map (fun p => pyReplace p.2.search_site "site:" "")
    let site_query := String.intercalate " OR " (sites.map (fun s => "site:" ++ s))
    "(" ++ site_query ++ ") " ++ query
  else get_search_site board_id ++ " " ++ query

/-- The DuckDuckGo URL `page.goto` receives. -/
def ddg_url (board_id : String) (query : String) : String :=
  "https://duckduckgo.com/?q=" ++ pyReplace (full_search_query board_id query) " " "+"
    ++ "&t=h_&ia=web"

/-- The link-collection loop of `search_jobs_via_browser`: keep a link
when some selected board's whole pattern set occurs in it (the inner
loop breaks on the first such board), deduplicated, capped at 20. -/
def search_collect (board_id : String) (links : List (Option String)) : List String :=
  (links.foldl
    (fun results href? =>
      match href? with
      | none => results
      | some href =>
        if href = "" then results
        else if BOARDS.any (fun p =>
              (board_id == "all" || p.1 == board_id)
                && p.2.url_patterns.all (fun q => inStr q href))
            && !(results.contains href) then
          results ++ [href]
        else results)
    []).take 20

/-- The command-line arguments of `main`. -/
structure Args where
  resume : Bool
  board : Option String

/-- The manual-list arm of `main`: clear progress unless resuming, filter
the worklist, exit before the browser when it is empty, else launch the
browser and run the per-job loop. -/
def manual_phase (resume : Bool) (config : Config) (applied : Finset String)
    (progress_file : Option RunProgress) (envOf : String → PageEnv) : List Event :=
  let evs : List Event := if resume then [] else [Event.clearProgressEv]
  let job_urls := manual_worklist resume progress_file applied config.job_urls
  if job_urls = [] then evs
  else evs ++ [Event.browserLaunch] ++ process_jobs envOf config job_urls

/-- The search arm of `main`: clear progress, launch the browser, run the
DuckDuckGo search, filter, and exit (closing the browser) when nothing is
left, else run the per-job loop. -/
def search_phase (board_id : String) (query : String) (applied : Finset String)
    (links : List (Option String)) (config : Config) (envOf : String → PageEnv) :
    List Event :=
  let evs := [Event.clearProgressEv, Event.browserLaunch,
    Event.navigate (ddg_url board_id query)]
  let found := search_collect board_id links
  if found = [] then evs
  else
    let job_urls := found.filter (fun u => decide (u ∉ applied))
    if job_urls = [] then evs
    else evs ++ process_jobs envOf config job_urls

/-- `main` as a trace: the manual-list arm when `config["job_urls"]` is a
nonempty list, otherwise the in-browser search arm.  `links` is what
`query_selector_all` finds on the search page. -/
def main_model (args : Args) (config : Config) (applied_file : Option (List String))
    (progress_file : Option RunProgress) (links : List (Option String))
    (envOf : String → PageEnv) : List Event :=
  if config.job_urls = [] then
    search_phase (args.board.getD (config.board.getD "all"))
      (config.job_search_query.getD "engineer") (load_applied_jobs applied_file)
      links config envOf
  else
    manual_phase args.resume config (load_applied_jobs applied_file) progress_file envOf

/-- Recognise progress-save events in a trace. -/
def isSaveProgress : Event → Bool
  | .saveProgress _ _ => true
  | _ => false

/-! ## Concrete environments and configurations used as evaluation inputs -/

/-- A frame on which every selector resolves to no element. -/
def trivialFrame : Frame where
  query := fun _ => .absent
  innerText := fun _ => ""
  altAttr := fun _ => none
  labelCount := fun _ => 0
  labelFillErr := fun _ => false
  setFilesOk := fun _ => false

/-- A page with no matching elements and no child frames. -/
def trivialEnv : PageEnv where
  main := trivialFrame
  frames := []
  resumeFileExists := false

/-- A frame on which exactly the second Greenhouse email selector
resolves to element `7`. -/
def emailFrame : Frame where
  query := fun s => if s = "input[name=\x27email\x27]" then .found 7 else .absent
  innerText := fun _ => ""
  altAttr := fun _ => none
  labelCount := fun _ => 0
  labelFillErr := fun _ => false
  setFilesOk := fun _ => false

/-- A configuration with no manual URL list and everything defaulted. -/
def cfgEmpty : Config where
  job_urls := []
  board := none
  job_search_query := none
  first_name := ""
  last_name := ""
  email := ""
  phone := ""
  linkedin_url := ""
  resume_path := ""
  cover_letter := ""
  cover_letter_template := ""

/-- `cfgEmpty` with the manual URL list `["a", "b"]`. -/
def cfgManual : Config :=
  { cfgEmpty with job_urls := ["a", "b"] }

/-! ## Theorems -/

/-- The detection loop returns the first registry entry whose predicate
holds, i.e. it agrees with `List.find?`. -/
theorem detectGo_eq_find (url : String) (l : List (String × Board)) :
    detectGo url l = (l.find? (fun p => boardMatches url p.2)).map Prod.fst := by
  induction l with
  | nil => rfl
  | cons hd tl ih =>
    obtain ⟨bid, b⟩ := hd
    cases hb : boardMatches url b with
    | true => simp [detectGo, hb]
    | false => simp [detectGo, hb, ih]

/-- A successful detection names a matching board that is preceded only by
non-matching boards. -/
theorem detectGo_some_first (url : String) (l : List (String × Board)) (bid : String)
    (h : detectGo url l = some bid) :
    ∃ pre b post, l = pre ++ (bid, b) :: post ∧ boardMatches url b = true ∧
      ∀ p ∈ pre, boardMatches url p.2 = false := by
  induction l with
  | nil => simp [detectGo] at h
  | cons hd tl ih =>
    obtain ⟨bid0, b0⟩ := hd
    cases hb : boardMatches url b0 with
    | true =>
      rw [detectGo, hb, if_pos rfl] at h
      obtain rfl : bid0 = bid := by simpa using h
      exact ⟨[], b0, tl, rfl, hb, by simp⟩
    | false =>
      rw [detectGo, hb] at h
      simp only [Bool.false_eq_true, if_false] at h
      obtain ⟨pre, b, post, hsplit, hmatch, hpre⟩ := ih h
      refine ⟨(bid0, b0) :: pre, b, post, by simp [hsplit], hmatch, ?_⟩
      intro p hp
      rcases List.mem_cons.mp hp with rfl | hp
      · exact hb
      · exact hpre p hp

/-- Claim C1: for every URL, `detect_board_from_url` returns the id of the
first board in registry iteration order (greenhouse, lever, ashby) whose
whole URL-pattern set occurs in the lowercased URL — so when several
boards match, the earlier-registered one wins — and returns `none`
exactly when no board's full pattern set matches. -/
theorem detect_board_first_match (url : String) :
    detect_board_from_url url
        = (BOARDS.find? (fun p => boardMatches url p.2)).map Prod.fst
      ∧ (detect_board_from_url url = none ↔
          ∀ p ∈ BOARDS, boardMatches url p.2 = false)
      ∧ ∀ bid, detect_board_from_url url = some bid →
          ∃ pre b post, BOARDS = pre ++ (bid, b) :: post ∧ boardMatches url b = true ∧
            ∀ p ∈ pre, boardMatches url p.2 = false := by
  refine ⟨detectGo_eq_find url BOARDS, ?_, fun bid h => detectGo_some_first url BOARDS bid h⟩
  rw [detect_board_from_url, detectGo_eq_find]
  constructor
  · intro h p hp
    have hnone : BOARDS.find? (fun p => boardMatches url p.2) = none := by
      cases hf : BOARDS.find? (fun p => boardMatches url p.2) with
      | none => rfl
      | some q => rw [hf] at h; simp at h
    have := List.find?_eq_none.mp hnone p hp
    simpa using this
  · intro h
    have hnone : BOARDS.find? (fun p => boardMatches url p.2) = none :=
      List.find?_eq_none.mpr (fun p hp => by simp [h p hp])
    simp [hnone]

/-- Claim C3: filling a field with an empty value fails with no page
mutation, and likewise when the board's selector list for the field key is
empty or missing. -/
theorem fill_field_guards (fr : Frame) (field_key : String) (value : String) (board : Board) :
    (value = "" → fill_field fr field_key value board = (false, []))
      ∧ ((List.lookup field_key board.fields).getD [] = [] →
          fill_field fr field_key value board = (false, [])) := by
  constructor
  · intro h
    simp [fill_field, h]
  · intro h
    by_cases hv : value = ""
    · simp [fill_field, hv]
    · simp [fill_field, hv, h]

/-- Witness for C3: the Greenhouse email field with an empty value. -/
theorem fill_field_guards_witness :
    fill_field trivialFrame "email" "" greenhouseBoard = (false, []) :=
  (fill_field_guards trivialFrame "email" "" greenhouseBoard).1 rfl

/-- The selector loop fills exactly the element of the first selector
that resolves, skipping the earlier absent ones. -/
theorem fill_go_first_found (fr : Frame) (value : String) :
    ∀ (sels : List String) (n : Nat) (sn : String) (el : Nat),
      (∀ s ∈ sels.take n, fr.query s = QueryRes.absent) →
      sels[n]? = some sn → fr.query sn = QueryRes.found el →
      fill_go fr value sels = (true, [Event.fillEl el value]) := by
  intro sels
  induction sels with
  | nil =>
    intro n sn el _ hget _
    simp at hget
  | cons hd tl ih =>
    intro n sn el habs hget hq
    cases n with
    | zero =>
      obtain rfl : hd = sn := by simpa using hget
      simp [fill_go, hq]
    | succ m =>
      have hhd : fr.query hd = QueryRes.absent := habs hd (by simp [List.take_succ_cons])
      rw [fill_go, hhd]
      exact ih m sn el
        (fun s hs => habs s (by simp [List.take_succ_cons]; exact Or.inr hs))
        (by simpa using hget) hq

/-- Claim C4: when the board's selector list for the key has only its
`n`-th selector resolving to a present element (all earlier ones absent),
filling a nonempty value probes in order, fills exactly that element,
succeeds, and touches nothing matched by any later selector. -/
theorem fill_field_probes_in_order (fr : Frame) (field_key : String) (value : String)
    (board : Board) (sels : List String) (n : Nat) (sn : String) (el : Nat)
    (hsel : (List.lookup field_key board.fields).getD [] = sels)
    (hv : value ≠ "")
    (habs : ∀ s ∈ sels.take n, fr.query s = QueryRes.absent)
    (hget : sels[n]? = some sn)
    (hq : fr.query sn = QueryRes.found el) :
    fill_field fr field_key value board = (true, [Event.fillEl el value]) := by
  have hne : sels ≠ [] := by
    rintro rfl
    simp at hget
  rw [fill_field, if_neg hv]
  simp only [hsel]
  rw [if_neg (by simpa [List.isEmpty_iff] using hne)]
  exact fill_go_first_found fr value sels n sn el habs hget hq

/-- Witness for C4: on a frame where only the second Greenhouse email
selector resolves, exactly element 7 is filled. -/
theorem fill_field_probes_in_order_witness :
    fill_field emailFrame "email" "me@x" greenhouseBoard
      = (true, [Event.fillEl 7 "me@x"]) :=
  fill_field_probes_in_order emailFrame "email" "me@x" greenhouseBoard
    ["#email", "input[name=\x27email\x27]", "input[type=\x27email\x27]"] 1
    "input[name=\x27email\x27]" 7 (by decide) (by decide)
    (by intro s hs; simp only [List.take] at hs; fin_cases hs; decide)
    (by decide) (by decide)

/-- Claim C6: cover-letter templating replaces every occurrence of
`{job_title}`, `{company_name}` and `{company}` with the extracted
values; in particular the spec's example instance holds exactly. -/
theorem cover_letter_template_substitution :
    fill_cover_letter_template "Dear {company}, re {job_title}" "SRE" "Acme"
        = "Dear Acme, re SRE"
      ∧ fill_cover_letter_template
          "{job_title} at {company} ({company_name}); {job_title} again" "SRE" "Acme"
        = "SRE at Acme (Acme); SRE again" :=
  ⟨by decide, by decide⟩

/-- Claim C5: recording a URL into the persisted applied set is
idempotent — after one or two recordings the stored list holds exactly
one occurrence of the URL, recording twice leaves the persisted set
unchanged — and recording never removes a previously recorded URL. -/
theorem applied_set_idempotent_monotone (file : Option (List String)) (url : String) :
    (save_applied_job url file).count url = 1
      ∧ (save_applied_job url (some (save_applied_job url file))).count url = 1
      ∧ load_applied_jobs (some (save_applied_job url (some (save_applied_job url file))))
          = load_applied_jobs (some (save_applied_job url file))
      ∧ ∀ u ∈ load_applied_jobs file,
          u ∈ load_applied_jobs (some (save_applied_job url file)) := by
  refine ⟨?_, ?_, ?_, ?_⟩
  · exact List.count_eq_one_of_mem (List.nodup_dedup _)
      (List.mem_dedup.mpr (List.mem_cons_self url _))
  · exact List.count_eq_one_of_mem (List.nodup_dedup _)
      (List.mem_dedup.mpr (List.mem_cons_self url _))
  · apply Finset.ext
    intro u
    simp only [load_applied_jobs, save_applied_job, Option.getD_some, List.mem_toFinset,
      List.mem_dedup, List.mem_cons]
    tauto
  · intro u hu
    cases file with
    | none => simp [load_applied_jobs] at hu
    | some l =>
      simp only [load_applied_jobs, List.mem_toFinset] at hu
      simp only [load_applied_jobs, save_applied_job, Option.getD_some, List.mem_toFinset,
        List.mem_dedup, List.mem_cons]
      exact Or.inr hu

/-- Witness for C5: a previously recorded URL survives a later recording
of a different URL. -/
theorem applied_set_idempotent_monotone_witness :
    "a" ∈ load_applied_jobs (some (save_applied_job "b" (some ["a"]))) :=
  (applied_set_idempotent_monotone (some ["a"]) "b").2.2.2 "a" (by decide)

/-- The frame loop of `find_form` finds nothing when no frame has the
form selector resolving to an element. -/
theorem frames_scan_eq_none (sel : String) :
    ∀ (l : List Frame) (i : Nat),
      (∀ fr ∈ l, ∀ el, fr.query sel ≠ QueryRes.found el) →
      frames_scan sel l i = none := by
  intro l
  induction l with
  | nil => intro i _; rfl
  | cons hd tl ih =>
    intro i h
    rw [frames_scan]
    cases hq : hd.query sel with
    | found el => exact absurd hq (h hd (List.mem_cons_self hd tl) el)
    | absent => exact ih (i + 1) (fun fr hfr => h fr (List.mem_cons_of_mem hd hfr))
    | error => exact ih (i + 1) (fun fr hfr => h fr (List.mem_cons_of_mem hd hfr))

/-- `find_form` fails when the form selector resolves nowhere: not on the
main document and not in any child frame. -/
theorem find_form_eq_none (env : PageEnv) (board : Board)
    (hmain : ∀ el, env.main.query board.form_selector ≠ QueryRes.found el)
    (hframes : ∀ fr ∈ env.frames, ∀ el, fr.query board.form_selector ≠ QueryRes.found el) :
    find_form env board = none := by
  rw [find_form]
  cases hq : env.main.query board.form_selector with
  | found el => exact absurd hq (hmain el)
  | absent =>
    by_cases hi : board.form_in_iframe
    · simp [hi, frames_scan_eq_none board.form_selector env.frames 0 hframes]
    · simp [hi]
  | error =>
    by_cases hi : board.form_in_iframe
    · simp [hi, frames_scan_eq_none board.form_selector env.frames 0 hframes]
    · simp [hi]

/-- Claim C7: when the application form resolves neither on the main
document nor in any child frame, processing the job navigates, dumps the
page for diagnosis, reports failure, records nothing in the applied set,
logs nothing — and the run loop still moves on to the next URL. -/
theorem no_form_found_skips_job (env : PageEnv) (url : String) (config : Config)
    (board_id : String) (board : Board)
    (hb : get_board board_id = some board)
    (hmain : ∀ el, env.main.query board.form_selector ≠ QueryRes.found el)
    (hframes : ∀ fr ∈ env.frames, ∀ el, fr.query board.form_selector ≠ QueryRes.found el) :
    apply_to_job env url config board_id = (false, [Event.navigate url, Event.dumpDebug])
      ∧ (∀ u, Event.recordApplied u ∉ (apply_to_job env url config board_id).2)
      ∧ (∀ u t c b, Event.logLine u t c b ∉ (apply_to_job env url config board_id).2)
      ∧ Event.dumpDebug ∈ (apply_to_job env url config board_id).2
      ∧ ∀ (envOf : String → PageEnv) (all rest : List String) (i : Nat),
          run_jobs envOf config all i (url :: rest)
            = (apply_to_job (envOf url) url config (loop_board_id config url)).2
              ++ [Event.saveProgress all i] ++ run_jobs envOf config all (i + 1) rest := by
  have htrace : apply_to_job env url config board_id
      = (false, [Event.navigate url, Event.dumpDebug]) := by
    simp [apply_to_job, hb, find_form_eq_none env board hmain hframes]
  refine ⟨htrace, ?_, ?_, ?_, fun envOf all rest i => rfl⟩
  · intro u
    rw [htrace]
    simp
  · intro u t c b
    rw [htrace]
    simp
  · rw [htrace]
    simp

/-- Witness for C7: an all-absent page for a Lever job. -/
theorem no_form_found_skips_job_witness :
    apply_to_job trivialEnv "u" cfgEmpty "lever"
      = (false, [Event.navigate "u", Event.dumpDebug]) :=
  (no_form_found_skips_job trivialEnv "u" cfgEmpty "lever" leverBoard rfl
    (by intro el h; simp [trivialEnv, trivialFrame] at h)
    (by intro fr hfr; simp [trivialEnv] at hfr)).1

/-- Claim C2: with a saved progress whose worklist equals the current one,
a resumed run processes exactly the suffix after the saved index; with a
differing saved worklist, or none, it processes the current worklist with
the applied URLs removed — and `main` iterates exactly that list. -/
theorem resume_worklist_semantics (progress : Option RunProgress) (urls : List String)
    (applied : Finset String) :
    (∀ p, progress = some p → p.job_urls = urls →
        manual_worklist true progress applied urls = urls.drop (p.last_index + 1))
      ∧ (∀ p, progress = some p → p.job_urls ≠ urls →
        manual_worklist true progress applied urls
          = urls.filter (fun u => decide (u ∉ applied)))
      ∧ (progress = none →
        manual_worklist true progress applied urls
          = urls.filter (fun u => decide (u ∉ applied)))
      ∧ ∀ (bopt : Option String) (config : Config) (applied_file : Option (List String))
          (links : List (Option String)) (envOf : String → PageEnv),
          config.job_urls = urls → urls ≠ [] →
          load_applied_jobs applied_file = applied →
          main_model ⟨true, bopt⟩ config applied_file progress links envOf
            = (if manual_worklist true progress applied urls = [] then []
               else Event.browserLaunch
                 :: process_jobs envOf config (manual_worklist true progress applied urls)) := by
  refine ⟨?_, ?_, ?_, ?_⟩
  · rintro p rfl hpe
    simp [manual_worklist, hpe]
  · rintro p rfl hpe
    simp [manual_worklist, hpe]
  · rintro rfl
    simp [manual_worklist]
  · intro bopt config af links envOf hc hne ha
    rw [main_model, if_neg (by rw [hc]; exact hne)]
    simp only [manual_phase, hc, ha]
    by_cases hw : manual_worklist true progress applied urls = []
    · simp [hw]
    · simp [hw]

/-- Witness for C2: saved progress over the same two-URL worklist with
last index 0 resumes at the second URL. -/
theorem resume_worklist_semantics_witness :
    manual_worklist true (some ⟨["a", "b"], 0⟩) ∅ ["a", "b"] = ["b"] :=
  ((resume_worklist_semantics (some ⟨["a", "b"], 0⟩) ["a", "b"] ∅).1
    ⟨["a", "b"], 0⟩ rfl rfl).trans (by decide)

/-- Claim C8 (amended): an empty manual worklist after filtering ends the
run before any browser action, with no effect beyond the progress-file
clear of a non-resume run; an empty (or fully applied) search result ends
the run after the browser launch and the single search navigation, with
no job processing and no further side effects. -/
theorem empty_worklist_terminates (args : Args) (config : Config)
    (applied_file : Option (List String)) (progress_file : Option RunProgress)
    (links : List (Option String)) (envOf : String → PageEnv) :
    (config.job_urls ≠ [] →
      manual_worklist args.resume progress_file (load_applied_jobs applied_file)
          config.job_urls = [] →
      main_model args config applied_file progress_file links envOf
        = if args.resume then [] else [Event.clearProgressEv])
      ∧ (config.job_urls = [] →
        (search_collect (args.board.getD (config.board.getD "all")) links).filter
            (fun u => decide (u ∉ load_applied_jobs applied_file)) = [] →
        main_model args config applied_file progress_file links envOf
          = [Event.clearProgressEv, Event.browserLaunch,
             Event.navigate (ddg_url (args.board.getD (config.board.getD "all"))
               (config.job_search_query.getD "engineer"))]) := by
  constructor
  · intro hne hwl
    rw [main_model, if_neg hne]
    simp only [manual_phase, hwl]
    simp
  · intro hc hfil
    rw [main_model, if_pos hc]
    by_cases hf : search_collect (args.board.getD (config.board.getD "all")) links = []
    · simp only [search_phase, hf]
      simp
    · simp only [search_phase, hfil]
      simp [hf]

/-- Witness for C8 (amended): both configured URLs already applied, so
the run ends before the browser with only the progress clear. -/
theorem empty_worklist_terminates_witness :
    main_model ⟨false, none⟩ cfgManual (some ["a", "b"]) none [] (fun _ => trivialEnv)
      = [Event.clearProgressEv] :=
  (empty_worklist_terminates ⟨false, none⟩ cfgManual (some ["a", "b"]) none []
    (fun _ => trivialEnv)).1 (by decide) (by decide)

/-- Counterexample to claim C8 as stated: with an empty search result the
run has already launched the browser and navigated to the search engine
before terminating, so it does not terminate "before any browser action
occurs" and a navigation does occur. -/
theorem empty_search_result_still_uses_browser :
    search_collect "all" [] = []
      ∧ main_model ⟨false, none⟩ cfgEmpty none none [] (fun _ => trivialEnv)
          = [Event.clearProgressEv, Event.browserLaunch,
             Event.navigate (ddg_url "all" "engineer")]
      ∧ Event.browserLaunch
          ∈ main_model ⟨false, none⟩ cfgEmpty none none [] (fun _ => trivialEnv) :=
  ⟨rfl, by decide, by decide⟩

/-- The selector loop never emits a progress save. -/
theorem fill_go_no_save (fr : Frame) (value : String) :
    ∀ sels : List String, ((fill_go fr value sels).2).filter isSaveProgress = [] := by
  intro sels
  induction sels with
  | nil => rfl
  | cons hd tl ih =>
    cases hq : fr.query hd with
    | found el => simp [fill_go, hq, isSaveProgress]
    | absent => simpa [fill_go, hq] using ih
    | error => simpa [fill_go, hq] using ih

/-- `fill_field` never emits a progress save. -/
theorem fill_field_no_save (fr : Frame) (k : String) (v : String) (b : Board) :
    ((fill_field fr k v b).2).filter isSaveProgress = [] := by
  rw [fill_field]
  by_cases hv : v = ""
  · simp [hv]
  · simp only [if_neg hv]
    by_cases hs : ((List.lookup k b.fields).getD []).isEmpty
    · simp [hs]
    · simp [hs, fill_go_no_save]

/-- The resume-upload loop never emits a progress save. -/
theorem resume_upload_no_save (fr : Frame) (path : String) :
    ∀ sels : List String, (resume_upload fr path sels).filter isSaveProgress = [] := by
  intro sels
  induction sels with
  | nil => rfl
  | cons hd tl ih =>
    by_cases hok : fr.setFilesOk hd
    · simp [resume_upload, hok, isSaveProgress]
    · simpa [resume_upload, hok] using ih

/-- The LinkedIn step never emits a progress save. -/
theorem linkedin_no_save (fr : Frame) (b : Board) (config : Config) :
    (linkedin_events fr b config).filter isSaveProgress = [] := by
  rw [linkedin_events]
  split_ifs <;> simp [fill_field_no_save, isSaveProgress]

/-- Form filling never emits a progress save. -/
theorem fill_form_no_save (fr : Frame) (re : Bool) (b : Board) (config : Config)
    (t c : String) :
    (fill_form_with_board fr re b config t c).filter isSaveProgress = [] := by
  simp only [fill_form_with_board]
  split_ifs <;>
    simp [List.filter_append, fill_field_no_save, linkedin_no_save, resume_upload_no_save]

/-- Processing one job never emits a progress save (saves come only from
the run loop itself). -/
theorem apply_to_job_no_save (env : PageEnv) (url : String) (config : Config) (bid : String) :
    ((apply_to_job env url config bid).2).filter isSaveProgress = [] := by
  rw [apply_to_job]
  cases hb : get_board bid with
  | none => rfl
  | some board =>
    cases hf : find_form env board with
    | none => simp [hf, isSaveProgress]
    | some root => simp [hf, List.filter_append, fill_form_no_save, isSaveProgress]

/-- The per-job loop emits exactly one progress save per processed URL,
carrying the iterated list and the URL's index, whatever each job's
outcome. -/
theorem run_jobs_filter_save (envOf : String → PageEnv) (config : Config) (all : List String) :
    ∀ (l : List String) (i : Nat),
      (run_jobs envOf config all i l).filter isSaveProgress
        = (List.range' i l.length).map (fun j => Event.saveProgress all j) := by
  intro l
  induction l with
  | nil => intro i; rfl
  | cons hd tl ih =>
    intro i
    rw [run_jobs]
    simp only [List.filter_append, apply_to_job_no_save, List.length_cons,
      List.range'_succ i tl.length 1]
    simp [isSaveProgress, ih (i + 1)]

/-- Claim C9: after each processed URL the run persists progress with the
filtered worklist actually iterated and that URL's index in it,
regardless of the job's success or failure; hence a resumed run with that
progress drops every position up to and including the last attempted
one. -/
theorem progress_saved_after_each_job (envOf : String → PageEnv) (config : Config)
    (job_urls : List String) :
    (process_jobs envOf config job_urls).filter isSaveProgress
        = (List.range job_urls.length).map (fun i => Event.saveProgress job_urls i)
      ∧ (∀ (r : Bool) (bopt : Option String) (applied_file : Option (List String))
          (progress_file : Option RunProgress) (links : List (Option String)),
          config.job_urls ≠ [] →
          manual_worklist r progress_file (load_applied_jobs applied_file) config.job_urls
            = job_urls →
          job_urls ≠ [] →
          (main_model ⟨r, bopt⟩ config applied_file progress_file links envOf).filter
              isSaveProgress
            = (List.range job_urls.length).map (fun i => Event.saveProgress job_urls i))
      ∧ ∀ (applied : Finset String) (i : Nat), i < job_urls.length →
          manual_worklist true (some ⟨job_urls, i⟩) applied job_urls
            = job_urls.drop (i + 1) := by
  have hp : (process_jobs envOf config job_urls).filter isSaveProgress
      = (List.range job_urls.length).map (fun i => Event.saveProgress job_urls i) := by
    rw [process_jobs]
    simp only [List.filter_append, run_jobs_filter_save]
    simp [isSaveProgress, List.range_eq_range']
  refine ⟨hp, ?_, ?_⟩
  · intro r bopt af pf links hne hwl hjne
    rw [main_model, if_neg hne]
    simp only [manual_phase, hwl]
    rw [if_neg hjne]
    simp only [List.filter_append, hp]
    cases r <;> simp [isSaveProgress]
  · intro applied i _
    simp [manual_worklist]

/-- Witness for C9: resuming from a progress saved at index 1 of a
three-URL worklist processes only the last URL. -/
theorem progress_saved_after_each_job_witness :
    manual_worklist true (some ⟨["x", "y", "z"], 1⟩) ∅ ["x", "y", "z"] = ["z"] :=
  ((progress_saved_after_each_job (fun _ => trivialEnv) cfgEmpty ["x", "y", "z"]).2.2
    ∅ 1 (by decide)).trans (by decide)

/-- Claim C10: when URL detection returns no board, the driver does not
skip the URL: it uses the configured board id, defaulting to
"greenhouse", and only skips the job — failure with no navigation — when
that fallback id names no registered board; otherwise the job is
processed, starting with navigation to the URL. -/
theorem detection_none_uses_config_fallback (env : PageEnv) (config : Config) (url : String)
    (hdetect : detect_board_from_url url = none) :
    loop_board_id config url = config.board.getD "greenhouse"
      ∧ (get_board (config.board.getD "greenhouse") = none →
          apply_to_job env url config (loop_board_id config url) = (false, []))
      ∧ ∀ b, get_board (config.board.getD "greenhouse") = some b →
          (apply_to_job env url config (loop_board_id config url)).2.head?
            = some (Event.navigate url) := by
  have hid : loop_board_id config url = config.board.getD "greenhouse" := by
    rw [loop_board_id, hdetect]
    rfl
  refine ⟨hid, ?_, ?_⟩
  · intro hnone
    rw [hid]
    simp [apply_to_job, hnone]
  · intro b hb
    rw [hid]
    cases hf : find_form env b with
    | none => simp [apply_to_job, hb, hf]
    | some root => simp [apply_to_job, hb, hf]

/-- Witness for C10: a URL matching no board is processed with the
default "greenhouse" board and navigation happens. -/
theorem detection_none_uses_config_fallback_witness :
    (apply_to_job trivialEnv "http://example.com/" cfgEmpty
        (loop_board_id cfgEmpty "http://example.com/")).2.head?
      = some (Event.navigate "http://example.com/") :=
  (detection_none_uses_config_fallback trivialEnv cfgEmpty "http://example.com/"
    (by decide)).2.2 greenhouseBoard rfl

/-- Witness for C1: the first-match characterisation evaluated on a
concrete Lever URL. -/
theorem detect_board_first_match_witness :
    detect_board_from_url "https://jobs.lever.co/acme/1"
      = ((BOARDS.find? (fun p => boardMatches "https://jobs.lever.co/acme/1" p.2)).map
          Prod.fst) :=
  (detect_board_first_match "https://jobs.lever.co/acme/1").1
